import Mathlib

/-!
Verification of the sippy data reconciliation core against its sources:
Component A (bug mapping reconciler, src/pkg/dataloader/bugloader/bugloader.go),
Component B (materialized view refresher, src/unnamed/part_001 and part_002),
and Component C (job artifact scanner, src/unnamed/part_000).
Go maps are embedded as association lists processed in a fixed (insertion)
order; Go's randomized map iteration order is irrelevant to every statement
proved here because each loop body touches only the entry's own key.
External collaborators (BigQuery, the relational store, GCS, the content
matcher) are embedded as explicit inputs carrying their responses.
-/

set_option maxRecDepth 4000

/- ============================================================ -/
/- Definitions: Component C, job artifact scanner               -/
/- ============================================================ -/

/-- Loop body of getJobRunFiles (src/unnamed/part_000 lines 91-104): fetch the
next object; on terminal condition either stop (iterator.Done, modelled by a
`none` terminal) or return the error (`some msg` terminal); otherwise, if the
accumulated file list has already reached the maximum, set the truncated flag
and stop without keeping the fetched object; else append the object's name
and continue. -/
def getJobRunFilesLoop (maxFiles : Nat) (term : Option String) :
    List String → List String → Except String (List String × Bool)
  | files, [] =>
    match term with
    | some e => .error e
    | none => .ok (files, false)
  | files, a :: rest =>
    if files.length ≥ maxFiles then
      .ok (files, true)
    else
      getJobRunFilesLoop maxFiles term (files ++ [a]) rest

/-- getJobRunFiles (src/unnamed/part_000 lines 78-107) with the listing
iterator's behaviour supplied as the list of object names it yields plus its
terminal condition.  The constant maxJobFilesToScan is defined outside the
given sources, so the bound is a parameter here. -/
def getJobRunFiles (maxFiles : Nat) (objects : List String)
    (term : Option String) : Except String (List String × Bool) :=
  getJobRunFilesLoop maxFiles term [] objects

/-- Per-file scan result of Component C (JobRunArtifact): job run id, the
constructed artifact URL, the error string (Go zero value "" when absent),
and the matcher's payload.  Go's MatchedContent is an interface value that
stays nil unless the matcher was invoked; the payload type is abstract here
(β) and `none` models the nil interface. -/
structure JobRunArtifact (β : Type) where
  JobRunID : String
  ArtifactURL : String
  Error : String := ""
  MatchedContent : Option β := none
deriving DecidableEq

/-- The artifact URL format string of src/unnamed/part_000 line 20 applied to
the bucket root and file path (util.GcsBucketRoot is defined outside the
given sources, so it is a parameter). -/
def artifactURL (gcsRoot filePath : String) : String :=
  "https://gcsweb-ci.apps.ci.l2s4.p1.openshiftapps.com/gcs/" ++ gcsRoot ++ "/" ++ filePath

/-- getFileContentMatches (src/unnamed/part_000 lines 109-129).  The content
matcher is a pluggable capability {GetMatches(byteStream) -> (MatchResult,
error)}; it is embedded as an optional function from the opened reader (an
abstract type α) to the pair of its payload and optional error.  Opening the
object is an external operation embedded as its Except result. -/
def getFileContentMatches {α β : Type} (gcsRoot : String) (jobRunID : Int)
    (filePath : String) (matcher : Option (α → β × Option String))
    (openObject : Except String α) : JobRunArtifact β :=
  let base : JobRunArtifact β :=
    { JobRunID := toString jobRunID, ArtifactURL := artifactURL gcsRoot filePath }
  match matcher with
  | none => base
  | some m =>
    match openObject with
    | .error e => { base with Error := e }
    | .ok reader =>
      let res := m reader
      { base with
        Error := (match res.2 with | some e => e | none => ""),
        MatchedContent := some res.1 }

/- ============================================================ -/
/- Definitions: Component B, materialized view refresher        -/
/- ============================================================ -/

/-- Observable outcome of refreshMatview's handling of one view: which
refresh statements were attempted, whether the view was skipped by the
only-if-empty probe, whether a per-view timing metric was recorded (the
"reported as refreshed" signal), and whether an error was logged for the
view. -/
structure MatviewResult where
  skipped : Bool
  triedConcurrent : Bool
  triedBlocking : Bool
  refreshed : Bool
  errorLogged : Bool
deriving DecidableEq

/-- The only-if-empty skip decision of refreshMatview: the view is skipped
exactly when the flag is set and the row-count probe succeeds with a
positive count (a probe error is only a warning and does not skip). -/
def matviewSkip (refreshMatviewOnlyIfEmpty : Bool)
    (countResult : Except String Int) : Bool :=
  refreshMatviewOnlyIfEmpty &&
    (match countResult with
     | .error _ => false
     | .ok count => decide (count > 0))

/-- Per-view body of refreshMatview (src/unnamed/part_001 lines 176-215 and
identically src/unnamed/part_002 lines 178-217).  The row-count probe and
the two refresh statements are external database operations embedded as
their outcomes: countResult is the probe's Except result (only consulted
when refreshMatviewOnlyIfEmpty is set; a probe error is logged as a warning
and the refresh proceeds), and concurrentErr/blockingErr are the optional
errors of the two REFRESH MATERIALIZED VIEW statements. -/
def refreshMatview (refreshMatviewOnlyIfEmpty : Bool)
    (countResult : Except String Int) (concurrentErr : Option String)
    (blockingErr : Option String) : MatviewResult :=
  if matviewSkip refreshMatviewOnlyIfEmpty countResult then
    { skipped := true, triedConcurrent := false, triedBlocking := false,
      refreshed := false, errorLogged := false }
  else
    match concurrentErr with
    | none =>
      { skipped := false, triedConcurrent := true, triedBlocking := false,
        refreshed := true, errorLogged := false }
    | some _ =>
      match blockingErr with
      | none =>
        { skipped := false, triedConcurrent := true, triedBlocking := true,
          refreshed := true, errorLogged := false }
      | some _ =>
        { skipped := false, triedConcurrent := true, triedBlocking := true,
          refreshed := false, errorLogged := true }

/- ============================================================ -/
/- Definitions: Component A, bug mapping reconciler             -/
/- ============================================================ -/

/-- Modelled from the spec: the local Test entity (models.Test is not among
the given sources).  The reconciler only copies cached Test values into a
Bug's Test list, so the entity is carried opaquely with an identity and a
name. -/
structure Test where
  id : Nat
  name : String
deriving DecidableEq

/-- Modelled from the spec: the local CI job entity (models.ProwJob is not
among the given sources), carried opaquely like `Test`. -/
structure ProwJob where
  id : Nat
  name : String
deriving DecidableEq

/-- Modelled from the spec: the relational Ticket row (models.Bug is not
among the given sources).  Fields are exactly those bugloader.go populates
in bigQueryBugToModel plus the Tests/Jobs many-to-many associations it
replaces; the numeric external ID is the primary key and timestamps are
abstract instants (Nat). -/
structure Bug where
  ID : Nat := 0
  Key : String := ""
  Status : String := ""
  LastChangeTime : Nat := 0
  Summary : String := ""
  AffectsVersions : List String := []
  FixVersions : List String := []
  TargetVersions : List String := []
  Components : List String := []
  Labels : List String := []
  URL : String := ""
  Tests : List Test := []
  Jobs : List ProwJob := []
deriving DecidableEq

/-- One decoded BigQuery row (struct bigQueryBug, bugloader.go lines 61-74).
LastChangedTime is a nullable timestamp (bigquery NullTimestamp); ID is
filled in by the caller after parsing JiraID, as in the Go code. -/
structure BigQueryBug where
  ID : Nat := 0
  Key : String := ""
  Status : String := ""
  LastChangedTime : Option Nat := none
  Summary : String := ""
  AffectsVersions : List String := []
  FixVersions : List String := []
  TargetVersions : List String := []
  Components : List String := []
  Labels : List String := []
  JiraID : String := ""
  LinkName : String := ""
deriving DecidableEq

/-- bigQueryBugToModel (bugloader.go lines 396-414): converts a BigQuery row
to a Ticket row; an invalid (null) last-changed timestamp is replaced by the
current wall-clock time `now`, and the canonical URL is derived from the
key. -/
def bigQueryBugToModel (now : Nat) (bqBug : BigQueryBug) : Bug :=
  { ID := bqBug.ID
    Key := bqBug.Key
    Status := bqBug.Status
    LastChangeTime :=
      match bqBug.LastChangedTime with
      | some t => t
      | none => now
    Summary := bqBug.Summary
    AffectsVersions := bqBug.AffectsVersions
    FixVersions := bqBug.FixVersions
    TargetVersions := bqBug.TargetVersions
    Components := bqBug.Components
    Labels := bqBug.Labels
    URL := "https://issues.redhat.com/browse/" ++ bqBug.Key }

/-- strconv.Atoi as used on jira_id strings: an optional sign followed by
decimal digits, rejected when empty or outside the 64-bit signed range (Go
returns the clamped value together with an error on overflow, and the
callers only consult the error). -/
def goAtoi (s : String) : Option Int :=
  let signDigits : Int × List Char :=
    match s.data with
    | '-' :: rest => (-1, rest)
    | '+' :: rest => (1, rest)
    | chars => (1, chars)
  let digits := signDigits.2
  if digits.isEmpty ∨ ¬ digits.all Char.isDigit then none
  else
    let n : Nat := digits.foldl (fun acc c => acc * 10 + (c.toNat - ('0').toNat)) 0
    let v : Int := signDigits.1 * (n : Int)
    if v < -(2 ^ 63) ∨ 2 ^ 63 ≤ v then none else some v

/-- The callers' `uint(intID)` conversion composed with strconv.Atoi: Go's
uint is 64-bit, so a negative parse wraps modulo 2^64. -/
def parseJiraID (s : String) : Option Nat :=
  (goAtoi s).map (fun i => (i % (2 ^ 64 : Int)).toNat)

/-- The read-only name-keyed caches (TestCache / JobCache) built by the
caller; lookup of the first binding for a name, matching Go map access. -/
def cacheFind {ε : Type} (cache : List (String × ε)) (name : String) : Option ε :=
  (cache.find? (fun p => p.1 == name)).map (fun p => p.2)

/-- The working sets built by the mapping queries: Go's map[uint]*models.Bug
as an association list in insertion order. -/
abbrev BugMap := List (Nat × Bug)

/-- Go map read m[k]. -/
def bugMapFind (m : BugMap) (k : Nat) : Option Bug :=
  (m.find? (fun p => p.1 == k)).map (fun p => p.2)

/-- Go map write m[k] = v: replace the existing binding in place, else append
a new one. -/
def bugMapInsert (m : BugMap) (k : Nat) (v : Bug) : BugMap :=
  if (m.find? (fun p => p.1 == k)).isSome then
    m.map (fun p => if p.1 == k then (k, v) else p)
  else m ++ [(k, v)]

/-- Loop body of getTestBugMappings (bugloader.go lines 240-273) for one
decoded row: skip silently when the id or matched test name is empty, record
a non-fatal error when the id does not parse, skip silently when the test
name is not in the TestCache, otherwise create the record on first sight of
the id and append the cached Test to its Test list. -/
def processTestRow (now : Nat) (testCache : List (String × Test))
    (acc : BugMap × List String) (r : BigQueryBug) : BugMap × List String :=
  if r.JiraID = "" ∨ r.LinkName = "" then acc
  else
    match parseJiraID r.JiraID with
    | none => (acc.1, acc.2 ++ ["failed to convert jira id " ++ r.JiraID])
    | some intID =>
      match cacheFind testCache r.LinkName with
      | none => acc
      | some t =>
        let base :=
          match bugMapFind acc.1 intID with
          | some b => b
          | none => bigQueryBugToModel now { r with ID := intID }
        (bugMapInsert acc.1 intID { base with Tests := base.Tests ++ [t] }, acc.2)

/-- getTestBugMappings (bugloader.go lines 224-276) over the decoded rows the
warehouse query returned, producing the test-mapping working set and the
accumulated non-fatal errors. -/
def getTestBugMappings (now : Nat) (testCache : List (String × Test))
    (rows : List BigQueryBug) : BugMap × List String :=
  rows.foldl (processTestRow now testCache) ([], [])

/-- Loop body of getJobBugMappings (bugloader.go lines 294-328), the same
shape as processTestRow with the JobCache and the Jobs list. -/
def processJobRow (now : Nat) (jobCache : List (String × ProwJob))
    (acc : BugMap × List String) (r : BigQueryBug) : BugMap × List String :=
  if r.JiraID = "" ∨ r.LinkName = "" then acc
  else
    match parseJiraID r.JiraID with
    | none => (acc.1, acc.2 ++ ["failed to convert jira id " ++ r.JiraID])
    | some intID =>
      match cacheFind jobCache r.LinkName with
      | none => acc
      | some j =>
        let base :=
          match bugMapFind acc.1 intID with
          | some b => b
          | none => bigQueryBugToModel now { r with ID := intID }
        (bugMapInsert acc.1 intID { base with Jobs := base.Jobs ++ [j] }, acc.2)

/-- getJobBugMappings (bugloader.go lines 280-331). -/
def getJobBugMappings (now : Nat) (jobCache : List (String × ProwJob))
    (rows : List BigQueryBug) : BugMap × List String :=
  rows.foldl (processJobRow now jobCache) ([], [])

/-- Loop body of getTriageBugMappings (bugloader.go lines 364-390): skip
silently on an empty id, record a non-fatal error when the id does not
parse, otherwise create the record on first sight of the id — existence
only, no Test/Job association. -/
def processTriageRow (now : Nat) (acc : BugMap × List String)
    (r : BigQueryBug) : BugMap × List String :=
  if r.JiraID = "" then acc
  else
    match parseJiraID r.JiraID with
    | none => (acc.1, acc.2 ++ ["failed to convert jira id " ++ r.JiraID])
    | some intID =>
      match bugMapFind acc.1 intID with
      | some _ => acc
      | none => (bugMapInsert acc.1 intID (bigQueryBugToModel now { r with ID := intID }), acc.2)

/-- Row-processing part of getTriageBugMappings (bugloader.go lines 335-393);
the key-extraction part that builds the query is modelled separately. -/
def getTriageBugMappings (now : Nat) (rows : List BigQueryBug) :
    BugMap × List String :=
  rows.foldl (processTriageRow now) ([], [])

/-- Body of the first merge loop of Load (bugloader.go lines 134-140) for
one job-mapping record: a record already present has its Job list
overwritten with the job-mapping record's Job list, and a record only in
the job-mapping set is inserted wholesale. -/
def mergeJobStep (acc : BugMap) (p : Nat × Bug) : BugMap :=
  match bugMapFind acc p.2.ID with
  | some existing => bugMapInsert acc p.2.ID { existing with Jobs := p.2.Jobs }
  | none => bugMapInsert acc p.2.ID p.2

/-- First merge loop of Load (bugloader.go lines 134-140), starting from the
test-mapping set. -/
def mergeJobBugs (allBugs jobBugs : BugMap) : BugMap :=
  jobBugs.foldl mergeJobStep allBugs

/-- Body of the second merge loop of Load (bugloader.go lines 141-146) for
one triage-mapping record: inserted only when its id is not already
present; it never overwrites. -/
def mergeTriageStep (acc : BugMap) (p : Nat × Bug) : BugMap :=
  match bugMapFind acc p.2.ID with
  | some _ => acc
  | none => bugMapInsert acc p.2.ID p.2

/-- Second merge loop of Load (bugloader.go lines 141-146). -/
def mergeTriageBugs (allBugs triageBugs : BugMap) : BugMap :=
  triageBugs.foldl mergeTriageStep allBugs

/-- Well-formedness of a working set as the mapping queries build it: keys
are unique and every record's ID equals its key. -/
def bugMapWF (m : BugMap) : Prop :=
  (m.map Prod.fst).Nodup ∧ ∀ p ∈ m, p.2.ID = p.1

/-- Upsert of one Ticket row by primary key with update-all-on-conflict
semantics (bugloader.go lines 157-159) combined with the explicit
replacement of the row's Tests and Jobs associations (lines 167 and 174):
the net effect on the embedded table is that the row with this id is
replaced wholesale, or appended when absent. -/
def upsertBug (tbl : List Bug) (b : Bug) : List Bug :=
  if tbl.any (fun r => r.ID == b.ID) then
    tbl.map (fun r => if r.ID == b.ID then b else r)
  else tbl ++ [b]

/-- Persist phase of Load (bugloader.go lines 154-181): every merged
record's id is appended to expectedBugIDs before its upsert is attempted,
and a failed create — an external database outcome, modelled by the
createFails oracle — skips the row write (and its association replacement)
but not the id. -/
def upsertPhase (tbl : List Bug) (toWrite : List Bug)
    (createFails : Nat → Bool) : List Bug :=
  toWrite.foldl (fun acc b => if createFails b.ID then acc else upsertBug acc b) tbl

/-- The authoritative id list collected during the persist phase
(bugloader.go lines 154-156). -/
def expectedBugIDs (toWrite : List Bug) : List Nat :=
  toWrite.map (fun b => b.ID)

/-- Stale-bug deletion (bugloader.go line 185): delete every row whose id is
not in expectedBugIDs.  gorm renders the placeholder for an empty id list as
(NULL), and the SQL predicate `id not in (NULL)` holds for no row, so an
empty authoritative set deletes nothing. -/
def deleteStaleBugs (tbl : List Bug) (ids : List Nat) : List Bug :=
  if ids.isEmpty then tbl
  else tbl.filter (fun r => ids.contains r.ID)

/-- The Ticket-table part of Load after the merge: upsert each merged record
in order, then delete the rows outside the authoritative id set. -/
def syncBugs (tbl : List Bug) (merged : List Bug)
    (createFails : Nat → Bool) : List Bug :=
  deleteStaleBugs (upsertPhase tbl merged createFails) (expectedBugIDs merged)

/-- The canonical ticket URL bigQueryBugToModel derives from the key
(bugloader.go line 412). -/
def bugURLForKey (key : String) : String :=
  "https://issues.redhat.com/browse/" ++ key

/-- Scheme-character test of net/url's getScheme: the first character must
be a letter, later ones letters, digits, or one of + - . -/
def isSchemeChar (first : Bool) (c : Char) : Bool :=
  if first then c.isAlpha
  else c.isAlpha || c.isDigit || c == '+' || c == '-' || c == '.'

/-- net/url getScheme on the fragment-stripped URL: `none` is a parse error
(a colon before any scheme name), `some none` means no scheme (the whole
string is a relative reference), `some (some (scheme, rest))` splits off
"scheme:".  The accumulator carries the scheme characters seen so far in
reverse. -/
def getSchemeAux : List Char → List Char → Option (Option (List Char × List Char))
  | _, [] => some none
  | acc, c :: rest =>
    if c == ':' then
      if acc.isEmpty then none
      else some (some (acc.reverse, rest))
    else if isSchemeChar acc.isEmpty c then getSchemeAux (c :: acc) rest
    else some none

/-- Everything before the first occurrence of a character (used for the
fragment and query cuts of net/url.Parse). -/
def takeUntil (c : Char) (l : List Char) : List Char :=
  l.takeWhile (fun x => x != c)

/-- strings.Split on a single separator character, with the same semantics
as Go (an empty input yields one empty field). -/
def splitOnChar (c : Char) : List Char → List (List Char)
  | [] => [[]]
  | x :: rest =>
    let r := splitOnChar c rest
    if x == c then [] :: r
    else
      match r with
      | [] => [[x]]
      | seg :: segs => (x :: seg) :: segs

/-- One hexadecimal digit's value, as net/url's unescape accepts it. -/
def hexDigitVal (c : Char) : Option Nat :=
  if '0' ≤ c ∧ c ≤ '9' then some (c.toNat - '0'.toNat)
  else if 'a' ≤ c ∧ c ≤ 'f' then some (c.toNat - 'a'.toNat + 10)
  else if 'A' ≤ c ∧ c ≤ 'F' then some (c.toNat - 'A'.toNat + 10)
  else none

/-- Percent-decoding of a URL path as net/url's setPath performs it: an
invalid or incomplete escape is a parse error.  Each escaped byte decodes
to the character of its value (faithful for ASCII; no statement here
depends on multi-byte escapes). -/
def percentDecode : List Char → Option (List Char)
  | [] => some []
  | c :: rest =>
    if c = '%' then
      match rest with
      | c1 :: c2 :: rest2 =>
        match hexDigitVal c1, hexDigitVal c2 with
        | some h1, some h2 =>
          (percentDecode rest2).map (fun l => Char.ofNat (h1 * 16 + h2) :: l)
        | _, _ => none
      | _ => none
    else (percentDecode rest).map (fun l => c :: l)

/-- The Path component net/url.Parse assigns to a URL, as a list of
characters, or `none` when url.Parse errors.  Modelled from Go's
net/url.parse for http(s)-style URLs and relative references: reject ASCII
control characters; cut the fragment at the first hash sign; split off a
scheme; cut the query at the first question mark; a scheme whose remainder
does not start with a slash is opaque (empty path); without a scheme a
colon in the first path segment is an error; a remainder starting with two
slashes consumes an authority up to the next slash; finally the raw path is
percent-decoded. -/
def urlParsePath (rawURL : String) : Option (List Char) :=
  let l := rawURL.data
  if l.any (fun c => c.toNat < 0x20 || c.toNat == 0x7f) then none
  else
    let frag := takeUntil '#' l
    match getSchemeAux [] frag with
    | none => none
    | some schemeOpt =>
      let rest0 :=
        match schemeOpt with
        | some (_, r) => r
        | none => frag
      let rest := takeUntil '?' rest0
      match rest with
      | '/' :: '/' :: afterSlashes =>
        if schemeOpt.isSome ||
            !(match afterSlashes with | '/' :: _ => true | _ => false) then
          percentDecode (afterSlashes.dropWhile (fun x => x != '/'))
        else
          percentDecode rest
      | '/' :: _ => percentDecode rest
      | _ =>
        match schemeOpt with
        | some _ => some []
        | none =>
          if (takeUntil '/' rest).any (fun x => x == ':') then none
          else percentDecode rest

/-- parseBugKeyFromURL (bugloader.go lines 416-428): parse the URL, split
its path on /, and return the last segment when the path has at least three
segments and the second-to-last is "browse"; `none` is the error case. -/
def parseBugKeyFromURL (jiraURL : String) : Option String :=
  match urlParsePath jiraURL with
  | none => none
  | some path =>
    let segs := splitOnChar '/' path
    match segs.reverse with
    | key :: b :: _ =>
      if segs.length < 3 ∨ b ≠ "browse".data then none
      else some (String.mk key)
    | _ => none

/-- Modelled from the spec: the Triage row (models.Triage is not among the
given sources) as the reconciler touches it: a local key, the curated
ticket URL, and the nullable foreign key to a Ticket row.  The linked Bug
(`t.Bug`) is an association preloaded from the Ticket table when the
triages are listed, not a stored column, so it is recomputed from a bug
table rather than stored here. -/
structure Triage where
  ID : Nat := 0
  Description : String := ""
  URL : String := ""
  BugID : Option Nat := none
deriving DecidableEq

/-- The Bug that ListTriages preloads for a Triage: the row of the bug
table its foreign key points to, when any. -/
def preloadBug (bugs : List Bug) (t : Triage) : Option Bug :=
  t.BugID.bind (fun i => bugs.find? (fun b => b.ID == i))

/-- Body of the triage-relink loop of Load (bugloader.go lines 196-219) for
one triage: skip when the triage is linked and its URL equals the preloaded
linked bug's URL (the preload is against the table as it was when the
triages were listed, before the persist phase); otherwise look the URL up
in the current (post-persist) bug table: on a hit set the foreign key to
that bug and save it, on a miss log a warning and leave the triage
unchanged.  The Save is an external database operation whose outcome is the
saveFails oracle, keyed by the triage's local id: a failed save (lines
213-218) is logged as a collected error and the stored row keeps its old
link. -/
def relinkTriage (saveFails : Nat → Bool) (initialBugs finalBugs : List Bug)
    (t : Triage) : Triage :=
  let skip :=
    match t.BugID, preloadBug initialBugs t with
    | some _, some cached => t.URL == cached.URL
    | _, _ => false
  if skip then t
  else
    match finalBugs.find? (fun b => b.URL == t.URL) with
    | some bug => if saveFails t.ID then t else { t with BugID := some bug.ID }
    | none => t

/-- Triage-URL key extraction of getTriageBugMappings (bugloader.go lines
338-346): any unparseable URL aborts the whole run with an error (Load
panics on it). -/
def computeTriageKeys : List Triage → Option (List String)
  | [] => some []
  | t :: rest =>
    match parseBugKeyFromURL t.URL with
    | none => none
    | some k => (computeTriageKeys rest).map (fun ks => k :: ks)

/-- One relational-store state as the reconciler sees it: the Ticket table
and the Triage rows. -/
structure DBState where
  bugs : List Bug
  triages : List Triage
deriving DecidableEq

/-- The merged working set of Load (bugloader.go lines 132-147): the
test-mapping set, overlaid by the job-mapping set's Job lists and job-only
records, then by triage-only records. -/
def loadMerged (now : Nat) (testCache : List (String × Test))
    (jobCache : List (String × ProwJob))
    (testRows jobRows triageRows : List BigQueryBug) : BugMap :=
  mergeTriageBugs
    (mergeJobBugs (getTestBugMappings now testCache testRows).1
      (getJobBugMappings now jobCache jobRows).1)
    (getTriageBugMappings now triageRows).1

/-- Load (bugloader.go lines 91-220) as a state transformation.  External
collaborators are explicit inputs: testRows and jobRows are the decoded
BigQuery responses of the test- and job-mapping queries, triageQuery maps
the extracted triage key list to the decoded response of the key-filtered
query, now is the wall clock read by bigQueryBugToModel, testCache and
jobCache are the caller-built caches, and createFails and saveFails give
each record create's and each triage save's outcome (the collected
per-record persistence failures).  The result is the new store state plus
the accumulated error list, or none when an unparseable triage URL aborts
the run. -/
def bugLoaderLoad (testRows jobRows : List BigQueryBug)
    (triageQuery : List String → List BigQueryBug) (now : Nat)
    (testCache : List (String × Test)) (jobCache : List (String × ProwJob))
    (createFails saveFails : Nat → Bool) (st : DBState) :
    Option (DBState × List String) :=
  match computeTriageKeys st.triages with
  | none => none
  | some keys =>
    let merged := (loadMerged now testCache jobCache testRows jobRows
      (triageQuery keys)).map (fun p => p.2)
    let newBugs := syncBugs st.bugs merged createFails
    let newTriages := st.triages.map (relinkTriage saveFails st.bugs newBugs)
    some ({ bugs := newBugs, triages := newTriages },
      (getTestBugMappings now testCache testRows).2 ++
        (getJobBugMappings now jobCache jobRows).2 ++
        (getTriageBugMappings now (triageQuery keys)).2 ++
        (merged.filter (fun b => createFails b.ID)).map
          (fun b => "error creating bug " ++ toString b.ID))

/- ============================================================ -/
/- Theorems: Component C                                        -/
/- ============================================================ -/

theorem getJobRunFilesLoop_all (maxFiles : Nat) (term : Option String) :
    ∀ (objects files : List String),
      files.length + objects.length ≤ maxFiles → term = none →
      getJobRunFilesLoop maxFiles term files objects = .ok (files ++ objects, false)
  | [], files, _, hterm => by simp [getJobRunFilesLoop, hterm]
  | a :: rest, files, h, hterm => by
    have hlt : files.length < maxFiles := by
      simp at h; omega
    have hrec := getJobRunFilesLoop_all maxFiles term rest (files ++ [a])
      (by simp at h ⊢; omega) hterm
    simp [getJobRunFilesLoop, Nat.not_le.mpr hlt, hrec]

theorem getJobRunFilesLoop_trunc (maxFiles : Nat) (term : Option String) :
    ∀ (objects files : List String),
      files.length ≤ maxFiles → maxFiles < files.length + objects.length →
      getJobRunFilesLoop maxFiles term files objects =
        .ok (files ++ objects.take (maxFiles - files.length), true)
  | [], files, hle, hgt => by simp at hgt; omega
  | a :: rest, files, hle, hgt => by
    by_cases hfull : files.length ≥ maxFiles
    · have : files.length = maxFiles := Nat.le_antisymm hle hfull
      simp [getJobRunFilesLoop, hfull, this]
    · have hlt : files.length < maxFiles := Nat.not_le.mp hfull
      have hrec := getJobRunFilesLoop_trunc maxFiles term rest (files ++ [a])
        (by simp; omega) (by simp at hgt ⊢; omega)
      have htake : maxFiles - files.length = (maxFiles - (files.length + 1)) + 1 := by
        omega
      simp [getJobRunFilesLoop, hfull, hrec, htake, List.take_succ_cons,
        List.append_assoc]

/-- Claim C5: whenever the storage listing yields strictly more objects than
the maximum scan count, getJobRunFiles returns without error, the returned
path list has length exactly the maximum, and the truncated flag is true —
regardless of whether the listing would have ended cleanly or with an error
beyond the cutoff. -/
theorem c5_truncation_signaling (maxFiles : Nat) (objects : List String)
    (term : Option String) (h : objects.length > maxFiles) :
    ∃ files, getJobRunFiles maxFiles objects term = .ok (files, true) ∧
      files.length = maxFiles := by
  refine ⟨objects.take maxFiles, ?_, ?_⟩
  · have := getJobRunFilesLoop_trunc maxFiles term objects []
      (by simp) (by simpa using h)
    simpa [getJobRunFiles] using this
  · simp [List.length_take]; omega

theorem c5_truncation_signaling_witness :
    (3 : Nat) > 2 ∧
    ∃ files,
      getJobRunFiles 2 ["a", "b", "c"] none = .ok (files, true) ∧
        files.length = 2 :=
  ⟨by decide, c5_truncation_signaling 2 ["a", "b", "c"] none (by decide)⟩

/-- Claim C10: boundary behaviour of the listing bound: when the listing
yields at most the maximum number of objects and terminates cleanly, every
object is returned and the truncated flag is false; when more objects exist
than the maximum, exactly the first maxFiles objects are returned with the
flag true, so the object whose retrieval triggers truncation is dropped. -/
theorem c10_listing_boundary (maxFiles : Nat) (objects : List String)
    (term : Option String) :
    (objects.length ≤ maxFiles → term = none →
      getJobRunFiles maxFiles objects term = .ok (objects, false)) ∧
    (objects.length > maxFiles →
      getJobRunFiles maxFiles objects term = .ok (objects.take maxFiles, true)) := by
  constructor
  · intro hle hterm
    have := getJobRunFilesLoop_all maxFiles term objects [] (by simpa using hle) hterm
    simpa [getJobRunFiles] using this
  · intro hgt
    have := getJobRunFilesLoop_trunc maxFiles term objects []
      (by simp) (by simpa using hgt)
    simpa [getJobRunFiles] using this

theorem c10_listing_boundary_witness :
    getJobRunFiles 2 ["a"] none = .ok (["a"], false) ∧
      getJobRunFiles 2 ["a", "b", "c"] none = .ok (["a", "b"], true) :=
  ⟨(c10_listing_boundary 2 ["a"] none).1 (by decide) rfl,
   (c10_listing_boundary 2 ["a", "b", "c"] none).2 (by decide)⟩

/-- Claim C6: per-file failures of Component C are captured on the result,
never propagated: with a matcher supplied, an open failure records the error
string (no payload was produced); a matcher failure records the error string
while still carrying the payload the matcher returned alongside the error;
in every case the identifying fields and artifact URL are populated; and
with no matcher supplied the result carries only the identifying fields and
URL (empty error, nil payload). -/
theorem c6_partial_match_on_failure {α β : Type} (gcsRoot : String)
    (jobRunID : Int) (filePath : String)
    (matcher : Option (α → β × Option String)) (openObject : Except String α) :
    (getFileContentMatches gcsRoot jobRunID filePath matcher openObject).JobRunID
        = toString jobRunID ∧
    (getFileContentMatches gcsRoot jobRunID filePath matcher openObject).ArtifactURL
        = artifactURL gcsRoot filePath ∧
    (matcher = none →
      getFileContentMatches gcsRoot jobRunID filePath matcher openObject =
        { JobRunID := toString jobRunID, ArtifactURL := artifactURL gcsRoot filePath,
          Error := "", MatchedContent := none }) ∧
    (∀ m e, matcher = some m → openObject = .error e →
      getFileContentMatches gcsRoot jobRunID filePath matcher openObject =
        { JobRunID := toString jobRunID, ArtifactURL := artifactURL gcsRoot filePath,
          Error := e, MatchedContent := none }) ∧
    (∀ m reader payload e, matcher = some m → openObject = .ok reader →
      m reader = (payload, some e) →
      getFileContentMatches gcsRoot jobRunID filePath matcher openObject =
        { JobRunID := toString jobRunID, ArtifactURL := artifactURL gcsRoot filePath,
          Error := e, MatchedContent := some payload }) := by
  refine ⟨?_, ?_, ?_, ?_, ?_⟩
  · cases matcher with
    | none => rfl
    | some m =>
      cases openObject with
      | error e => rfl
      | ok reader => simp [getFileContentMatches]
  · cases matcher with
    | none => rfl
    | some m =>
      cases openObject with
      | error e => rfl
      | ok reader => simp [getFileContentMatches]
  · intro hm; subst hm; rfl
  · intro m e hm ho; subst hm; subst ho; rfl
  · intro m reader payload e hm ho hres
    subst hm; subst ho
    simp [getFileContentMatches, hres]

theorem c6_partial_match_on_failure_witness :
    (some (fun _ : Unit => ((7 : Nat), some "boom")) = none → False) ∧
    (getFileContentMatches "root" 42 "f.log"
        (some (fun _ : Unit => ((7 : Nat), some "boom"))) (.ok ()) =
      { JobRunID := "42", ArtifactURL := artifactURL "root" "f.log",
        Error := "boom", MatchedContent := some 7 }) := by
  constructor
  · intro h; cases h
  · exact (c6_partial_match_on_failure "root" 42 "f.log"
      (some (fun _ : Unit => ((7 : Nat), some "boom"))) (.ok ())).2.2.2.2
      (fun _ : Unit => ((7 : Nat), some "boom")) () 7 "boom" rfl rfl rfl

/- ============================================================ -/
/- Theorems: Component B                                        -/
/- ============================================================ -/

/-- Claim C7: for every view the worker does not skip via the only-if-empty
probe, the concurrent refresh is attempted; the blocking refresh is
attempted exactly when the concurrent refresh fails; if the concurrent
refresh fails and the blocking refresh succeeds the view is reported as
refreshed with no error; a successful concurrent refresh likewise reports
the view refreshed; and an error is logged for the view exactly when both
strategies fail. -/
theorem c7_view_refresh_fallback (onlyIfEmpty : Bool)
    (countResult : Except String Int) (concurrentErr blockingErr : Option String)
    (hproc : (refreshMatview onlyIfEmpty countResult concurrentErr blockingErr).skipped
      = false) :
    (refreshMatview onlyIfEmpty countResult concurrentErr blockingErr).triedConcurrent
        = true ∧
    ((refreshMatview onlyIfEmpty countResult concurrentErr blockingErr).triedBlocking
        = true ↔ concurrentErr.isSome) ∧
    (concurrentErr.isSome → blockingErr = none →
      (refreshMatview onlyIfEmpty countResult concurrentErr blockingErr).refreshed
          = true ∧
      (refreshMatview onlyIfEmpty countResult concurrentErr blockingErr).errorLogged
          = false) ∧
    (concurrentErr = none →
      (refreshMatview onlyIfEmpty countResult concurrentErr blockingErr).refreshed
          = true) ∧
    ((refreshMatview onlyIfEmpty countResult concurrentErr blockingErr).errorLogged
        = true ↔ concurrentErr.isSome ∧ blockingErr.isSome) := by
  by_cases hskip : matviewSkip onlyIfEmpty countResult = true
  · exfalso
    simp only [refreshMatview, hskip, if_true] at hproc
    cases hproc
  · have hs : matviewSkip onlyIfEmpty countResult = false := by
      simpa using hskip
    simp only [refreshMatview, hs, Bool.false_eq_true, if_false]
    cases concurrentErr <;> cases blockingErr <;> simp

theorem c7_view_refresh_fallback_witness :
    (refreshMatview false (.ok 0) (some "no unique index") none).skipped = false ∧
    (refreshMatview false (.ok 0) (some "no unique index") none).triedConcurrent
        = true ∧
    ((refreshMatview false (.ok 0) (some "no unique index") none).triedBlocking
        = true ↔ (some "no unique index").isSome) ∧
    ((refreshMatview false (.ok 0) (some "no unique index") none).refreshed = true ∧
     (refreshMatview false (.ok 0) (some "no unique index") none).errorLogged
        = false) := by
  have h := c7_view_refresh_fallback false (.ok 0) (some "no unique index") none
    (by decide)
  exact ⟨by decide, h.1, h.2.1, h.2.2.1 (by decide) rfl⟩

/- ============================================================ -/
/- Theorems: Component A merge (claim C1)                       -/
/- ============================================================ -/

theorem findReplace_ne (m : BugMap) (k id : Nat) (v : Bug) (h : k ≠ id) :
    (m.map (fun p => if p.1 == k then (k, v) else p)).find? (fun p => p.1 == id)
      = m.find? (fun p => p.1 == id) := by
  induction m with
  | nil => rfl
  | cons p rest ih =>
    by_cases hp : p.1 = k
    · have h1 : (p.1 == k) = true := by simpa using hp
      rw [List.map_cons, h1]
      simp only [if_true]
      rw [List.find?_cons_of_neg _ (by simp [h]),
        List.find?_cons_of_neg _ (by simp [hp, h]), ih]
    · have h1 : (p.1 == k) = false := by simpa using hp
      rw [List.map_cons, h1]
      simp only [Bool.false_eq_true, if_false]
      by_cases hid : p.1 = id
      · rw [List.find?_cons_of_pos _ (by simpa using hid),
          List.find?_cons_of_pos _ (by simpa using hid)]
      · rw [List.find?_cons_of_neg _ (by simpa using hid),
          List.find?_cons_of_neg _ (by simpa using hid), ih]

theorem findReplace_eq (m : BugMap) (k : Nat) (v : Bug)
    (h : (m.find? (fun p => p.1 == k)).isSome = true) :
    (m.map (fun p => if p.1 == k then (k, v) else p)).find? (fun p => p.1 == k)
      = some (k, v) := by
  induction m with
  | nil => simp [List.find?] at h
  | cons p rest ih =>
    by_cases hp : p.1 = k
    · have h1 : (p.1 == k) = true := by simpa using hp
      rw [List.map_cons, h1]
      simp only [if_true]
      rw [List.find?_cons_of_pos _ (by simp)]
    · have h1 : (p.1 == k) = false := by simpa using hp
      rw [List.map_cons, h1]
      simp only [Bool.false_eq_true, if_false]
      rw [List.find?_cons_of_neg _ (by simpa using hp)]
      apply ih
      rwa [List.find?_cons_of_neg _ (by simpa using hp)] at h

theorem bugMapFind_insert_ne (m : BugMap) (k id : Nat) (v : Bug) (h : k ≠ id) :
    bugMapFind (bugMapInsert m k v) id = bugMapFind m id := by
  unfold bugMapInsert bugMapFind
  by_cases hpres : (m.find? (fun p => p.1 == k)).isSome = true
  · rw [if_pos hpres, findReplace_ne m k id v h]
  · rw [if_neg hpres, List.find?_append]
    have hkid : ((k : Nat) == id) = false := by simpa using h
    have : ([(k, v)].find? (fun p => p.1 == id)) = none := by
      simp [List.find?, hkid]
    rw [this, Option.or_none]

theorem bugMapFind_insert_eq (m : BugMap) (k : Nat) (v : Bug) :
    bugMapFind (bugMapInsert m k v) k = some v := by
  unfold bugMapInsert bugMapFind
  by_cases hpres : (m.find? (fun p => p.1 == k)).isSome = true
  · rw [if_pos hpres, findReplace_eq m k v hpres]
    rfl
  · rw [if_neg hpres, List.find?_append]
    have hnone : m.find? (fun p => p.1 == k) = none := by
      cases hf : m.find? (fun p => p.1 == k) with
      | none => rfl
      | some q => rw [hf] at hpres; simp at hpres
    rw [hnone]
    simp [List.find?]

theorem mergeJobStep_find_ne (acc : BugMap) (p : Nat × Bug) (id : Nat)
    (h : p.2.ID ≠ id) :
    bugMapFind (mergeJobStep acc p) id = bugMapFind acc id := by
  unfold mergeJobStep
  cases hfind : bugMapFind acc p.2.ID with
  | some existing => exact bugMapFind_insert_ne _ _ _ _ h
  | none => exact bugMapFind_insert_ne _ _ _ _ h

theorem mergeJobBugs_find_preserve (id : Nat) :
    ∀ (jb : List (Nat × Bug)) (acc : BugMap),
      (∀ p ∈ jb, p.2.ID ≠ id) →
      bugMapFind (mergeJobBugs acc jb) id = bugMapFind acc id
  | [], _, _ => rfl
  | p :: rest, acc, h => by
    have hrec := mergeJobBugs_find_preserve id rest (mergeJobStep acc p)
      (fun q hq => h q (List.mem_cons_of_mem _ hq))
    calc bugMapFind (mergeJobBugs acc (p :: rest)) id
        = bugMapFind (mergeJobBugs (mergeJobStep acc p) rest) id := rfl
      _ = bugMapFind (mergeJobStep acc p) id := hrec
      _ = bugMapFind acc id := mergeJobStep_find_ne acc p id (h p (List.mem_cons_self _ _))

theorem mergeJobBugs_find_main (id : Nat) :
    ∀ (jb : List (Nat × Bug)) (acc : BugMap),
      (∀ p ∈ jb, p.2.ID = p.1) → (jb.map Prod.fst).Nodup →
      ∀ j, bugMapFind jb id = some j →
      (∀ t, bugMapFind acc id = some t →
        bugMapFind (mergeJobBugs acc jb) id = some { t with Jobs := j.Jobs }) ∧
      (bugMapFind acc id = none →
        bugMapFind (mergeJobBugs acc jb) id = some j)
  | [], _, _, _, j, hj => by simp [bugMapFind, List.find?] at hj
  | p :: rest, acc, hvals, hkeys, j, hj => by
    by_cases hpid : p.1 = id
    · have hfound : bugMapFind (p :: rest) id = some p.2 := by
        unfold bugMapFind
        rw [List.find?_cons_of_pos _ (by simpa using hpid)]
        rfl
      have hjp : j = p.2 := by
        rw [hfound] at hj; exact (Option.some_inj.mp hj).symm
      have hpID : p.2.ID = id := by rw [hvals p (List.mem_cons_self _ _), hpid]
      have hrest_ne : ∀ q ∈ rest, q.2.ID ≠ id := by
        intro q hq
        rw [hvals q (List.mem_cons_of_mem _ hq)]
        have hnd := hkeys
        rw [List.map_cons, List.nodup_cons] at hnd
        intro hcontra
        refine hnd.1 ?_
        rw [hpid, ← hcontra]
        exact List.mem_map_of_mem Prod.fst hq
      constructor
      · intro t ht
        have hstep : mergeJobStep acc p =
            bugMapInsert acc p.2.ID { t with Jobs := p.2.Jobs } := by
          unfold mergeJobStep
          rw [hpID, ht]
        calc bugMapFind (mergeJobBugs acc (p :: rest)) id
            = bugMapFind (mergeJobBugs (mergeJobStep acc p) rest) id := rfl
          _ = bugMapFind (mergeJobStep acc p) id :=
              mergeJobBugs_find_preserve id rest _ hrest_ne
          _ = some { t with Jobs := j.Jobs } := by
              rw [hstep, hjp, ← hpID, bugMapFind_insert_eq]
      · intro hnone
        have hstep : mergeJobStep acc p = bugMapInsert acc p.2.ID p.2 := by
          unfold mergeJobStep
          rw [hpID, hnone]
        calc bugMapFind (mergeJobBugs acc (p :: rest)) id
            = bugMapFind (mergeJobBugs (mergeJobStep acc p) rest) id := rfl
          _ = bugMapFind (mergeJobStep acc p) id :=
              mergeJobBugs_find_preserve id rest _ hrest_ne
          _ = some j := by rw [hstep, hjp, ← hpID, bugMapFind_insert_eq]
    · have hj' : bugMapFind rest id = some j := by
        unfold bugMapFind at hj ⊢
        rwa [List.find?_cons_of_neg _ (by simpa using hpid)] at hj
      have hpne : p.2.ID ≠ id := by
        rw [hvals p (List.mem_cons_self _ _)]; exact hpid
      have hrec := mergeJobBugs_find_main id rest (mergeJobStep acc p)
        (fun q hq => hvals q (List.mem_cons_of_mem _ hq))
        (by rw [List.map_cons, List.nodup_cons] at hkeys; exact hkeys.2)
        j hj'
      constructor
      · intro t ht
        have ht' : bugMapFind (mergeJobStep acc p) id = some t := by
          rw [mergeJobStep_find_ne acc p id hpne]; exact ht
        exact hrec.1 t ht'
      · intro hnone
        have hn' : bugMapFind (mergeJobStep acc p) id = none := by
          rw [mergeJobStep_find_ne acc p id hpne]; exact hnone
        exact hrec.2 hn'

theorem mergeTriageBugs_keeps_some (id : Nat) (x : Bug) :
    ∀ (trB : List (Nat × Bug)) (acc : BugMap),
      bugMapFind acc id = some x →
      bugMapFind (mergeTriageBugs acc trB) id = some x
  | [], _, h => h
  | p :: rest, acc, h => by
    have hstep : bugMapFind (mergeTriageStep acc p) id = some x := by
      unfold mergeTriageStep
      by_cases hpid : p.2.ID = id
      · rw [hpid, h]
        exact h
      · cases hfind : bugMapFind acc p.2.ID with
        | some existing => exact h
        | none => rw [bugMapFind_insert_ne _ _ _ _ hpid]; exact h
    exact mergeTriageBugs_keeps_some id x rest (mergeTriageStep acc p) hstep

/-- Claim C1: in the merge step of Load, a ticket id present in both the
test-mapping and job-mapping sets ends with the job-mapping set's Job list
(even when empty) and the test-mapping set's Test list; an id present only
in the job-mapping set is inserted wholesale; and a triage-mapping record
whose id is already present in the merged set never overwrites it. -/
theorem c1_merge_precedence (testBugs jobBugs triageBugs : BugMap) (id : Nat)
    (hvals : ∀ p ∈ jobBugs, p.2.ID = p.1)
    (hkeys : (jobBugs.map Prod.fst).Nodup) :
    (∀ t j, bugMapFind testBugs id = some t → bugMapFind jobBugs id = some j →
      bugMapFind (mergeTriageBugs (mergeJobBugs testBugs jobBugs) triageBugs) id
        = some { t with Jobs := j.Jobs }) ∧
    (∀ j, bugMapFind testBugs id = none → bugMapFind jobBugs id = some j →
      bugMapFind (mergeTriageBugs (mergeJobBugs testBugs jobBugs) triageBugs) id
        = some j) ∧
    (∀ x, bugMapFind (mergeJobBugs testBugs jobBugs) id = some x →
      bugMapFind (mergeTriageBugs (mergeJobBugs testBugs jobBugs) triageBugs) id
        = some x) := by
  refine ⟨?_, ?_, ?_⟩
  · intro t j ht hj
    have h := (mergeJobBugs_find_main id jobBugs testBugs hvals hkeys j hj).1 t ht
    exact mergeTriageBugs_keeps_some id _ triageBugs _ h
  · intro j hnone hj
    have h := (mergeJobBugs_find_main id jobBugs testBugs hvals hkeys j hj).2 hnone
    exact mergeTriageBugs_keeps_some id _ triageBugs _ h
  · intro x hx
    exact mergeTriageBugs_keeps_some id x triageBugs _ hx

theorem c1_merge_precedence_witness :
    bugMapFind (mergeTriageBugs (mergeJobBugs
        [(5, { ID := 5, Tests := [{ id := 1, name := "t1" }],
               Jobs := [{ id := 9, name := "stale-job" }] })]
        [(5, { ID := 5, Jobs := [] })])
        [(5, { ID := 5, Summary := "triage" })]) 5
      = some { ID := 5, Tests := [{ id := 1, name := "t1" }], Jobs := [] } := by
  have h := (c1_merge_precedence
      [(5, { ID := 5, Tests := [{ id := 1, name := "t1" }],
             Jobs := [{ id := 9, name := "stale-job" }] })]
      [(5, { ID := 5, Jobs := [] })]
      [(5, { ID := 5, Summary := "triage" })] 5
      (by decide) (by decide)).1
      { ID := 5, Tests := [{ id := 1, name := "t1" }],
        Jobs := [{ id := 9, name := "stale-job" }] }
      { ID := 5, Jobs := [] } (by decide) (by decide)
  simpa using h

/- ============================================================ -/
/- Theorems: Component A persist and delete (claim C3)          -/
/- ============================================================ -/

theorem upsertBug_presence (tbl : List Bug) (b : Bug) (i : Nat)
    (h : ∃ r ∈ tbl, r.ID = i) : ∃ r ∈ upsertBug tbl b, r.ID = i := by
  obtain ⟨r, hr, hri⟩ := h
  unfold upsertBug
  by_cases hany : tbl.any (fun r => r.ID == b.ID) = true
  · rw [if_pos hany]
    by_cases hrb : r.ID = b.ID
    · refine ⟨b, List.mem_map.mpr ⟨r, hr, by simp [hrb]⟩, by rw [← hri, hrb]⟩
    · refine ⟨r, List.mem_map.mpr ⟨r, hr, by simp [hrb]⟩, hri⟩
  · rw [if_neg hany]
    exact ⟨r, List.mem_append_left _ hr, hri⟩

theorem upsertPhase_presence (i : Nat) (createFails : Nat → Bool) :
    ∀ (toWrite : List Bug) (tbl : List Bug),
      (∃ r ∈ tbl, r.ID = i) →
      ∃ r ∈ upsertPhase tbl toWrite createFails, r.ID = i
  | [], _, h => h
  | b :: rest, tbl, h => by
    have hstep : ∃ r ∈ (if createFails b.ID then tbl else upsertBug tbl b), r.ID = i := by
      by_cases hf : createFails b.ID = true
      · rw [if_pos hf]; exact h
      · rw [if_neg hf]; exact upsertBug_presence tbl b i h
    exact upsertPhase_presence i createFails rest _ hstep

/-- Claim C3 (amended): after the persist and delete phases of a run whose
authoritative merged set is nonempty, every surviving row's id is in the
authoritative id set — so every pre-existing row whose id is absent from
the merged set is gone — and every pre-existing row whose id is in the
merged set still has a row with its id, even when its own upsert failed. -/
theorem c3_resync_completeness (tbl merged : List Bug)
    (createFails : Nat → Bool) (hne : merged ≠ []) :
    (∀ r ∈ tbl, r.ID ∉ expectedBugIDs merged →
      ∀ r' ∈ syncBugs tbl merged createFails, r'.ID ≠ r.ID) ∧
    (∀ r ∈ tbl, r.ID ∈ expectedBugIDs merged →
      ∃ r' ∈ syncBugs tbl merged createFails, r'.ID = r.ID) := by
  have hids : (expectedBugIDs merged).isEmpty = false := by
    cases merged with
    | nil => exact absurd rfl hne
    | cons b rest => rfl
  constructor
  · intro r _ hrout r' hr'
    unfold syncBugs deleteStaleBugs at hr'
    rw [hids] at hr'
    simp only [Bool.false_eq_true, if_false] at hr'
    have := (List.mem_filter.mp hr').2
    intro heq
    rw [heq] at this
    exact hrout (by simpa using this)
  · intro r hr hrin
    obtain ⟨r', hr', hid⟩ :=
      upsertPhase_presence r.ID createFails merged tbl ⟨r, hr, rfl⟩
    refine ⟨r', ?_, hid⟩
    unfold syncBugs deleteStaleBugs
    rw [hids]
    simp only [Bool.false_eq_true, if_false]
    refine List.mem_filter.mpr ⟨hr', ?_⟩
    rw [hid]
    simpa using hrin

theorem c3_resync_completeness_witness :
    ((([{ ID := 3 }] : List Bug) ≠ []) ∧
      ∀ r' ∈ syncBugs [({ ID := 7 } : Bug)] [{ ID := 3 }] (fun i => i == 3),
        r'.ID ≠ 7) ∧
    ∃ r' ∈ syncBugs [({ ID := 3, Summary := "old" } : Bug)] [{ ID := 3 }]
        (fun i => i == 3), r'.ID = 3 := by
  refine ⟨⟨by decide, ?_⟩, ?_⟩
  · exact (c3_resync_completeness [({ ID := 7 } : Bug)] [{ ID := 3 }]
      (fun i => i == 3) (by decide)).1 { ID := 7 } (by decide) (by decide)
  · exact (c3_resync_completeness [({ ID := 3, Summary := "old" } : Bug)]
      [{ ID := 3 }] (fun i => i == 3) (by decide)).2
      { ID := 3, Summary := "old" } (by decide) (by decide)

/-- Counterexample to claim C3 as stated: with an empty authoritative merged
set, the delete predicate `id not in (NULL)` matches no row, so a
pre-existing Ticket row whose key is absent from the merged set survives
the run. -/
theorem c3_resync_completeness_counterexample :
    syncBugs [({ ID := 7 } : Bug)] [] (fun _ => false) = [({ ID := 7 } : Bug)] ∧
      (7 : Nat) ∉ expectedBugIDs [] := by
  constructor
  · rfl
  · intro h; cases h

/- ============================================================ -/
/- Theorems: URL construction and key extraction (claim C9)     -/
/- ============================================================ -/

theorem takeUntil_eq_self (c : Char) :
    ∀ l : List Char, (∀ x ∈ l, x ≠ c) → takeUntil c l = l
  | [], _ => rfl
  | x :: rest, h => by
    have hx : (x != c) = true := by
      simpa using h x (List.mem_cons_self _ _)
    have hr := takeUntil_eq_self c rest (fun y hy => h y (List.mem_cons_of_mem _ hy))
    simp only [takeUntil, List.takeWhile_cons, hx, if_true]
    simpa [takeUntil] using hr

theorem percentDecode_no_pct :
    ∀ l : List Char, (∀ x ∈ l, x ≠ '%') → percentDecode l = some l
  | [], _ => rfl
  | x :: rest, h => by
    have hx : ¬ (x = '%') := h x (List.mem_cons_self _ _)
    have hr := percentDecode_no_pct rest (fun y hy => h y (List.mem_cons_of_mem _ hy))
    rw [percentDecode.eq_def]
    simp [if_neg hx, hr]

theorem splitOnChar_no_sep (c : Char) :
    ∀ l : List Char, (∀ x ∈ l, x ≠ c) → splitOnChar c l = [l]
  | [], _ => rfl
  | x :: rest, h => by
    have hx : (x == c) = false := by
      simpa using h x (List.mem_cons_self _ _)
    have hr := splitOnChar_no_sep c rest (fun y hy => h y (List.mem_cons_of_mem _ hy))
    simp only [splitOnChar, hx, Bool.false_eq_true, if_false, hr]

theorem parseBugKeyFromURL_roundtrip (key : String)
    (hkey : ∀ c ∈ key.data, c ≠ '/' ∧ c ≠ '?' ∧ c ≠ '#' ∧ c ≠ '%' ∧
      0x20 ≤ c.toNat ∧ c.toNat ≠ 0x7f) :
    parseBugKeyFromURL (bugURLForKey key) = some key := by
  have hctlkey : (key.data.any (fun c => c.toNat < 0x20 || c.toNat == 0x7f)) = false := by
    rw [List.any_eq_false]
    intro c hc
    obtain ⟨-, -, -, -, h5, h6⟩ := hkey c hc
    simp
    omega
  have htkf : key.data.takeWhile (fun x => x != '#') = key.data := by
    have := takeUntil_eq_self '#' key.data (fun x hx => (hkey x hx).2.2.1)
    simpa [takeUntil] using this
  have htkq : key.data.takeWhile (fun x => x != '?') = key.data := by
    have := takeUntil_eq_self '?' key.data (fun x hx => (hkey x hx).2.1)
    simpa [takeUntil] using this
  have hsk : splitOnChar '/' key.data = [key.data] :=
    splitOnChar_no_sep '/' key.data (fun x hx => (hkey x hx).1)
  have hpdpath : percentDecode ('/' :: 'b' :: 'r' :: 'o' :: 'w' :: 's' :: 'e' :: '/' :: key.data)
      = some ('/' :: 'b' :: 'r' :: 'o' :: 'w' :: 's' :: 'e' :: '/' :: key.data) := by
    refine percentDecode_no_pct _ ?_
    intro x hx
    simp only [List.mem_cons] at hx
    rcases hx with rfl | rfl | rfl | rfl | rfl | rfl | rfl | rfl | h
    · decide
    · decide
    · decide
    · decide
    · decide
    · decide
    · decide
    · decide
    · exact (hkey x h).2.2.2.1
  simp [parseBugKeyFromURL, urlParsePath, bugURLForKey, takeUntil, getSchemeAux,
    isSchemeChar, splitOnChar, List.any_append, List.any_cons,
    List.takeWhile_cons, List.dropWhile_cons, hctlkey, htkf, htkq, hpdpath, hsk]

theorem parseBugKeyFromURL_err (url : String) (path : List Char)
    (hp : urlParsePath url = some path)
    (hcond : (splitOnChar '/' path).length < 3 ∨
      (splitOnChar '/' path).reverse[1]? ≠ some ("browse").data) :
    parseBugKeyFromURL url = none := by
  unfold parseBugKeyFromURL
  rw [hp]
  show (match (splitOnChar '/' path).reverse with
    | key :: b :: _ =>
      if (splitOnChar '/' path).length < 3 ∨ b ≠ ("browse").data then none
      else some (String.mk key)
    | _ => none) = none
  cases hrev : (splitOnChar '/' path).reverse with
  | nil => rfl
  | cons k tail =>
    cases tail with
    | nil => rfl
    | cons b rest =>
      have hb : (splitOnChar '/' path).reverse[1]? = some b := by
        rw [hrev]; simp
      have hor : (splitOnChar '/' path).length < 3 ∨ b ≠ ("browse").data := by
        rcases hcond with h | h
        · exact Or.inl h
        · refine Or.inr ?_
          intro heq
          exact h (by rw [hb, heq])
      show (if (splitOnChar '/' path).length < 3 ∨ b ≠ ("browse").data then none
        else some (String.mk k)) = none
      rw [if_pos hor]

/-- Claim C9 (amended): for every ticket key containing no slash, question
mark, hash sign, percent sign, or ASCII control character, parsing the
canonical URL that bigQueryBugToModel derives from the key returns exactly
that key with no error; and for every URL whose parsed path has fewer than
three slash-separated segments or whose second-to-last segment is not
"browse", parseBugKeyFromURL returns an error. -/
theorem c9_url_key_roundtrip (key : String)
    (hkey : ∀ c ∈ key.data, c ≠ '/' ∧ c ≠ '?' ∧ c ≠ '#' ∧ c ≠ '%' ∧
      0x20 ≤ c.toNat ∧ c.toNat ≠ 0x7f) :
    parseBugKeyFromURL (bugURLForKey key) = some key ∧
    (∀ url path, urlParsePath url = some path →
      ((splitOnChar '/' path).length < 3 ∨
        (splitOnChar '/' path).reverse[1]? ≠ some ("browse").data) →
      parseBugKeyFromURL url = none) :=
  ⟨parseBugKeyFromURL_roundtrip key hkey,
   fun url path hp hcond => parseBugKeyFromURL_err url path hp hcond⟩

theorem c9_url_key_roundtrip_witness :
    parseBugKeyFromURL (bugURLForKey "OCPBUGS-123") = some "OCPBUGS-123" ∧
    parseBugKeyFromURL "https://x.com/a" = none := by
  have h := c9_url_key_roundtrip "OCPBUGS-123" (by decide)
  refine ⟨h.1, ?_⟩
  exact h.2 "https://x.com/a" ['/', 'a'] (by decide) (by decide)

/-- Counterexample to claim C9 as stated: the key "A?B" contains no path
separator, yet net/url cuts the query at the question mark, so parsing the
canonical URL built from it returns "A", not "A?B". -/
theorem c9_url_key_roundtrip_counterexample :
    ('/' ∉ ("A?B").data) ∧
    parseBugKeyFromURL (bugURLForKey "A?B") = some "A" ∧
    ("A" : String) ≠ "A?B" := by
  refine ⟨by decide, by decide, by decide⟩

/- ============================================================ -/
/- Theorems: triage relink (claim C4)                           -/
/- ============================================================ -/

/-- Claim C4 (amended): a triage whose URL differs from its preloaded linked
bug's URL (or that has no resolvable link) ends the relink step either with
its foreign key set to the first current-table bug whose URL equals the
triage's URL — when such a bug exists and the triage's save succeeds — or
unchanged, still carrying its previous (possibly mismatched or dangling)
link: when no such bug exists only a warning is logged, and when the save
fails the error is collected and the stored row keeps its old link. -/
theorem c4_triage_repair (saveFails : Nat → Bool)
    (initialBugs finalBugs : List Bug) (t : Triage)
    (hmismatch : ∀ cached, preloadBug initialBugs t = some cached →
      t.URL ≠ cached.URL) :
    (∃ b, finalBugs.find? (fun b => b.URL == t.URL) = some b ∧
      saveFails t.ID = false ∧
      relinkTriage saveFails initialBugs finalBugs t
        = { t with BugID := some b.ID } ∧
      b.URL = t.URL) ∨
    ((finalBugs.find? (fun b => b.URL == t.URL) = none ∨
        saveFails t.ID = true) ∧
      relinkTriage saveFails initialBugs finalBugs t = t) := by
  have hskip :
      (match t.BugID, preloadBug initialBugs t with
       | some _, some cached => t.URL == cached.URL
       | _, _ => false) = false := by
    cases hb : t.BugID with
    | none => rfl
    | some i =>
      cases hc : preloadBug initialBugs t with
      | none => rfl
      | some cached =>
        have := hmismatch cached hc
        simpa using this
  unfold relinkTriage
  rw [hskip]
  simp only [Bool.false_eq_true, if_false]
  cases hf : finalBugs.find? (fun b => b.URL == t.URL) with
  | none => exact Or.inr ⟨Or.inl rfl, rfl⟩
  | some bug =>
    cases hsf : saveFails t.ID with
    | true => exact Or.inr ⟨Or.inr rfl, rfl⟩
    | false =>
      refine Or.inl ⟨bug, rfl, rfl, rfl, ?_⟩
      have := List.find?_some hf
      simpa using this

theorem c4_triage_repair_witness :
    (∃ b, [({ ID := 12, URL := "https://issues.redhat.com/browse/K12" } : Bug)].find?
        (fun b => b.URL == "https://issues.redhat.com/browse/K12") = some b ∧
      (fun _ : Nat => false) (1 : Nat) = false ∧
      relinkTriage (fun _ => false)
        [({ ID := 7, URL := "https://issues.redhat.com/browse/K7" } : Bug)]
        [({ ID := 12, URL := "https://issues.redhat.com/browse/K12" } : Bug)]
        { ID := 1, URL := "https://issues.redhat.com/browse/K12", BugID := some 7 }
        = { ID := 1, URL := "https://issues.redhat.com/browse/K12",
            BugID := some b.ID } ∧
      b.URL = "https://issues.redhat.com/browse/K12") ∨
    (([({ ID := 12, URL := "https://issues.redhat.com/browse/K12" } : Bug)].find?
        (fun b => b.URL == "https://issues.redhat.com/browse/K12") = none ∨
      (fun _ : Nat => false) (1 : Nat) = true) ∧
      relinkTriage (fun _ => false)
        [({ ID := 7, URL := "https://issues.redhat.com/browse/K7" } : Bug)]
        [({ ID := 12, URL := "https://issues.redhat.com/browse/K12" } : Bug)]
        { ID := 1, URL := "https://issues.redhat.com/browse/K12", BugID := some 7 }
        = { ID := 1, URL := "https://issues.redhat.com/browse/K12", BugID := some 7 }) :=
  c4_triage_repair (fun _ => false)
    [({ ID := 7, URL := "https://issues.redhat.com/browse/K7" } : Bug)]
    [({ ID := 12, URL := "https://issues.redhat.com/browse/K12" } : Bug)]
    { ID := 1, URL := "https://issues.redhat.com/browse/K12", BugID := some 7 }
    (by decide)

/-- Counterexample to claim C4 as stated: a triage linked to bug 7 with a
URL that matches no current bug is left linked to bug 7 even though bug 7's
URL differs from the triage's — neither relinked to a matching ticket nor
unlinked. -/
theorem c4_triage_repair_counterexample :
    relinkTriage (fun _ => false)
        [({ ID := 7, URL := "https://issues.redhat.com/browse/K7" } : Bug)]
        [({ ID := 7, URL := "https://issues.redhat.com/browse/K7" } : Bug)]
        { ID := 1, URL := "https://example.com/browse/OTHER", BugID := some 7 }
      = { ID := 1, URL := "https://example.com/browse/OTHER", BugID := some 7 } ∧
    (({ ID := 7, URL := "https://issues.redhat.com/browse/K7" } : Bug) ∈
      [({ ID := 7, URL := "https://issues.redhat.com/browse/K7" } : Bug)]) ∧
    ({ ID := 7, URL := "https://issues.redhat.com/browse/K7" } : Bug).URL
      ≠ "https://example.com/browse/OTHER" := by
  exact ⟨by decide, by decide, by decide⟩

/- ============================================================ -/
/- Theorems: warehouse-row error handling (claim C8)            -/
/- ============================================================ -/

/-- Claim C8 (amended): in the test- and job-mapping row loops, a row whose
id string is nonempty but fails numeric parsing is skipped (the working set
is unchanged) and a non-fatal conversion error is appended to the error
list; a row whose id string (or matched name) is empty is skipped silently,
leaving both the working set and the error list exactly unchanged; in
neither case does processing abort. -/
theorem c8_row_error_handling (now : Nat) (testCache : List (String × Test))
    (jobCache : List (String × ProwJob)) (acc : BugMap × List String)
    (r : BigQueryBug) :
    (r.JiraID ≠ "" → r.LinkName ≠ "" → parseJiraID r.JiraID = none →
      processTestRow now testCache acc r
        = (acc.1, acc.2 ++ ["failed to convert jira id " ++ r.JiraID]) ∧
      processJobRow now jobCache acc r
        = (acc.1, acc.2 ++ ["failed to convert jira id " ++ r.JiraID])) ∧
    (r.JiraID = "" →
      processTestRow now testCache acc r = acc ∧
      processJobRow now jobCache acc r = acc ∧
      processTriageRow now acc r = acc) := by
  constructor
  · intro hid hname hparse
    constructor
    · unfold processTestRow
      rw [if_neg (by simp [hid, hname]), hparse]
    · unfold processJobRow
      rw [if_neg (by simp [hid, hname]), hparse]
  · intro hid
    refine ⟨?_, ?_, ?_⟩
    · unfold processTestRow
      rw [if_pos (Or.inl hid)]
    · unfold processJobRow
      rw [if_pos (Or.inl hid)]
    · unfold processTriageRow
      rw [if_pos hid]

theorem c8_row_error_handling_witness :
    processTestRow 0 [] ([], []) { JiraID := "abc", LinkName := "t" }
      = ([], ["failed to convert jira id " ++ "abc"]) ∧
    processTestRow 0 [] ([], []) { JiraID := "" } = ([], []) := by
  have h1 := (c8_row_error_handling 0 [] [] ([], [])
    { JiraID := "abc", LinkName := "t" }).1 (by decide) (by decide) (by decide)
  have h2 := (c8_row_error_handling 0 [] [] ([], []) { JiraID := "" }).2 rfl
  exact ⟨h1.1, h2.1⟩

/-- Counterexample to claim C8 as stated: a row whose external id string is
missing (empty) is skipped but no error is recorded — the error list stays
empty, where the claim requires an accumulated non-fatal error. -/
theorem c8_row_error_handling_counterexample :
    getTestBugMappings 0 [("unit-test-foo", { id := 1, name := "unit-test-foo" })]
        [{ JiraID := "", LinkName := "unit-test-foo" }] = ([], []) ∧
    getJobBugMappings 0 [("job-a", { id := 2, name := "job-a" })]
        [{ JiraID := "", LinkName := "job-a" }] = ([], []) := by
  exact ⟨rfl, rfl⟩

/- ============================================================ -/
/- Theorems: reconciler idempotence (claim C2)                  -/
/- ============================================================ -/

theorem bigQueryBugToModel_now_indep (now now' : Nat) (r : BigQueryBug)
    (h : r.LastChangedTime.isSome = true) :
    bigQueryBugToModel now r = bigQueryBugToModel now' r := by
  unfold bigQueryBugToModel
  cases hl : r.LastChangedTime with
  | none => rw [hl] at h; simp at h
  | some t => rfl

theorem processTestRow_now_indep (now now' : Nat)
    (tc : List (String × Test)) (acc : BugMap × List String) (r : BigQueryBug)
    (h : r.LastChangedTime.isSome = true) :
    processTestRow now tc acc r = processTestRow now' tc acc r := by
  have hb : ∀ i : Nat, bigQueryBugToModel now { r with ID := i }
      = bigQueryBugToModel now' { r with ID := i } := fun i =>
    bigQueryBugToModel_now_indep now now' _ (by simpa using h)
  unfold processTestRow
  by_cases h1 : r.JiraID = "" ∨ r.LinkName = ""
  · rw [if_pos h1, if_pos h1]
  · rw [if_neg h1, if_neg h1]
    cases hpid : parseJiraID r.JiraID with
    | none => simp only [hpid]
    | some i =>
      simp only [hpid]
      cases hcf : cacheFind tc r.LinkName with
      | none => simp only [hcf]
      | some t =>
        simp only [hcf]
        cases hbf : bugMapFind acc.1 i with
        | some b => simp only [hbf]
        | none => simp only [hbf, hb i]

theorem processJobRow_now_indep (now now' : Nat)
    (jc : List (String × ProwJob)) (acc : BugMap × List String) (r : BigQueryBug)
    (h : r.LastChangedTime.isSome = true) :
    processJobRow now jc acc r = processJobRow now' jc acc r := by
  have hb : ∀ i : Nat, bigQueryBugToModel now { r with ID := i }
      = bigQueryBugToModel now' { r with ID := i } := fun i =>
    bigQueryBugToModel_now_indep now now' _ (by simpa using h)
  unfold processJobRow
  by_cases h1 : r.JiraID = "" ∨ r.LinkName = ""
  · rw [if_pos h1, if_pos h1]
  · rw [if_neg h1, if_neg h1]
    cases hpid : parseJiraID r.JiraID with
    | none => simp only [hpid]
    | some i =>
      simp only [hpid]
      cases hcf : cacheFind jc r.LinkName with
      | none => simp only [hcf]
      | some j =>
        simp only [hcf]
        cases hbf : bugMapFind acc.1 i with
        | some b => simp only [hbf]
        | none => simp only [hbf, hb i]

theorem processTriageRow_now_indep (now now' : Nat)
    (acc : BugMap × List String) (r : BigQueryBug)
    (h : r.LastChangedTime.isSome = true) :
    processTriageRow now acc r = processTriageRow now' acc r := by
  have hb : ∀ i : Nat, bigQueryBugToModel now { r with ID := i }
      = bigQueryBugToModel now' { r with ID := i } := fun i =>
    bigQueryBugToModel_now_indep now now' _ (by simpa using h)
  unfold processTriageRow
  by_cases h1 : r.JiraID = ""
  · rw [if_pos h1, if_pos h1]
  · rw [if_neg h1, if_neg h1]
    cases hpid : parseJiraID r.JiraID with
    | none => simp only [hpid]
    | some i =>
      simp only [hpid]
      cases hbf : bugMapFind acc.1 i with
      | some b => simp only [hbf]
      | none => simp only [hbf, hb i]

theorem getTestBugMappings_now_indep (now now' : Nat)
    (tc : List (String × Test)) :
    ∀ (rows : List BigQueryBug) (acc : BugMap × List String),
      (∀ r ∈ rows, r.LastChangedTime.isSome = true) →
      rows.foldl (processTestRow now tc) acc
        = rows.foldl (processTestRow now' tc) acc
  | [], _, _ => rfl
  | r :: rest, acc, h => by
    rw [List.foldl_cons, List.foldl_cons,
      processTestRow_now_indep now now' tc acc r (h r (List.mem_cons_self _ _))]
    exact getTestBugMappings_now_indep now now' tc rest _
      (fun q hq => h q (List.mem_cons_of_mem _ hq))

theorem getJobBugMappings_now_indep (now now' : Nat)
    (jc : List (String × ProwJob)) :
    ∀ (rows : List BigQueryBug) (acc : BugMap × List String),
      (∀ r ∈ rows, r.LastChangedTime.isSome = true) →
      rows.foldl (processJobRow now jc) acc
        = rows.foldl (processJobRow now' jc) acc
  | [], _, _ => rfl
  | r :: rest, acc, h => by
    rw [List.foldl_cons, List.foldl_cons,
      processJobRow_now_indep now now' jc acc r (h r (List.mem_cons_self _ _))]
    exact getJobBugMappings_now_indep now now' jc rest _
      (fun q hq => h q (List.mem_cons_of_mem _ hq))

theorem getTriageBugMappings_now_indep (now now' : Nat) :
    ∀ (rows : List BigQueryBug) (acc : BugMap × List String),
      (∀ r ∈ rows, r.LastChangedTime.isSome = true) →
      rows.foldl (processTriageRow now) acc
        = rows.foldl (processTriageRow now') acc
  | [], _, _ => rfl
  | r :: rest, acc, h => by
    rw [List.foldl_cons, List.foldl_cons,
      processTriageRow_now_indep now now' acc r (h r (List.mem_cons_self _ _))]
    exact getTriageBugMappings_now_indep now now' rest _
      (fun q hq => h q (List.mem_cons_of_mem _ hq))

theorem loadMerged_now_indep (now now' : Nat) (tc : List (String × Test))
    (jc : List (String × ProwJob)) (testRows jobRows triageRows : List BigQueryBug)
    (ht : ∀ r ∈ testRows, r.LastChangedTime.isSome = true)
    (hj : ∀ r ∈ jobRows, r.LastChangedTime.isSome = true)
    (hq : ∀ r ∈ triageRows, r.LastChangedTime.isSome = true) :
    loadMerged now tc jc testRows jobRows triageRows
      = loadMerged now' tc jc testRows jobRows triageRows := by
  unfold loadMerged getTestBugMappings getJobBugMappings getTriageBugMappings
  rw [getTestBugMappings_now_indep now now' tc testRows ([], []) ht,
    getJobBugMappings_now_indep now now' jc jobRows ([], []) hj,
    getTriageBugMappings_now_indep now now' triageRows ([], []) hq]

theorem relinkTriage_URL (saveFails : Nat → Bool)
    (initialBugs finalBugs : List Bug) (t : Triage) :
    (relinkTriage saveFails initialBugs finalBugs t).URL = t.URL := by
  unfold relinkTriage
  by_cases hs : (match t.BugID, preloadBug initialBugs t with
    | some _, some cached => t.URL == cached.URL
    | _, _ => false) = true
  · rw [hs]
    rfl
  · have hs' : (match t.BugID, preloadBug initialBugs t with
        | some _, some cached => t.URL == cached.URL
        | _, _ => false) = false := by simpa using hs
    rw [hs']
    simp only [Bool.false_eq_true, if_false]
    cases finalBugs.find? (fun b => b.URL == t.URL) with
    | none => rfl
    | some bug => cases saveFails t.ID <;> rfl

theorem computeTriageKeys_map (f : Triage → Triage)
    (hf : ∀ t, (f t).URL = t.URL) :
    ∀ l : List Triage, computeTriageKeys (l.map f) = computeTriageKeys l
  | [] => rfl
  | t :: rest => by
    have hr := computeTriageKeys_map f hf rest
    simp only [List.map_cons, computeTriageKeys, hf t, hr]

theorem bugMapFind_WF_ID (m : BugMap) (k : Nat) (b : Bug)
    (hm : bugMapWF m) (hf : bugMapFind m k = some b) : b.ID = k := by
  unfold bugMapFind at hf
  cases hp : m.find? (fun p => p.1 == k) with
  | none => rw [hp] at hf; cases hf
  | some p =>
    rw [hp] at hf
    have hpk : p.1 = k := by simpa using List.find?_some hp
    have hpm : p ∈ m := List.mem_of_find?_eq_some hp
    have hb : b = p.2 := by
      simpa using hf.symm
    rw [hb, hm.2 p hpm, hpk]

theorem bugMapWF_insert (m : BugMap) (k : Nat) (v : Bug)
    (hm : bugMapWF m) (hv : v.ID = k) : bugMapWF (bugMapInsert m k v) := by
  obtain ⟨hnd, hvals⟩ := hm
  unfold bugMapInsert
  by_cases hp : (m.find? (fun p => p.1 == k)).isSome = true
  · rw [if_pos hp]
    constructor
    · have hkeys : (m.map (fun p => if p.1 == k then (k, v) else p)).map Prod.fst
          = m.map Prod.fst := by
        rw [List.map_map]
        apply List.map_congr_left
        intro p _
        by_cases h : p.1 = k
        · simp [h]
        · simp [h]
      rw [hkeys]
      exact hnd
    · intro p hp'
      obtain ⟨q, hq, hfq⟩ := List.mem_map.mp hp'
      by_cases h : q.1 = k
      · rw [← hfq]
        simp only [h, beq_self_eq_true, if_true]
        exact hv
      · rw [← hfq]
        simp only [h, beq_iff_eq, if_false]
        exact hvals q hq
  · rw [if_neg hp]
    have hnone : m.find? (fun p => p.1 == k) = none := by
      cases hf : m.find? (fun p => p.1 == k) with
      | none => rfl
      | some q => rw [hf] at hp; simp at hp
    have hknot : k ∉ m.map Prod.fst := by
      intro hk
      obtain ⟨q, hq, hfq⟩ := List.mem_map.mp hk
      have := List.find?_eq_none.mp hnone q hq
      exact this (by simp [hfq])
    constructor
    · rw [List.map_append]
      have : ([(k, v)].map Prod.fst) = [k] := rfl
      rw [this]
      rw [List.nodup_append]
      refine ⟨hnd, List.nodup_singleton k, ?_⟩
      intro a ha hb
      have : a = k := by simpa using hb
      rw [this] at ha
      exact hknot ha
    · intro p hp'
      rcases List.mem_append.mp hp' with h | h
      · exact hvals p h
      · have : p = (k, v) := by simpa using h
        rw [this]
        exact hv

theorem processTestRow_WF (now : Nat) (tc : List (String × Test))
    (acc : BugMap × List String) (r : BigQueryBug)
    (h : bugMapWF acc.1) : bugMapWF (processTestRow now tc acc r).1 := by
  unfold processTestRow
  by_cases h1 : r.JiraID = "" ∨ r.LinkName = ""
  · rw [if_pos h1]; exact h
  · rw [if_neg h1]
    cases hpid : parseJiraID r.JiraID with
    | none => exact h
    | some i =>
      cases hcf : cacheFind tc r.LinkName with
      | none => exact h
      | some t =>
        simp only
        cases hbf : bugMapFind acc.1 i with
        | some b =>
          simp only [hbf]
          have hid : b.ID = i := bugMapFind_WF_ID acc.1 i b h hbf
          exact bugMapWF_insert acc.1 i _ h (by simpa using hid)
        | none =>
          simp only [hbf]
          exact bugMapWF_insert acc.1 i _ h rfl

theorem processJobRow_WF (now : Nat) (jc : List (String × ProwJob))
    (acc : BugMap × List String) (r : BigQueryBug)
    (h : bugMapWF acc.1) : bugMapWF (processJobRow now jc acc r).1 := by
  unfold processJobRow
  by_cases h1 : r.JiraID = "" ∨ r.LinkName = ""
  · rw [if_pos h1]; exact h
  · rw [if_neg h1]
    cases hpid : parseJiraID r.JiraID with
    | none => exact h
    | some i =>
      cases hcf : cacheFind jc r.LinkName with
      | none => exact h
      | some j =>
        simp only
        cases hbf : bugMapFind acc.1 i with
        | some b =>
          simp only [hbf]
          have hid : b.ID = i := bugMapFind_WF_ID acc.1 i b h hbf
          exact bugMapWF_insert acc.1 i _ h (by simpa using hid)
        | none =>
          simp only [hbf]
          exact bugMapWF_insert acc.1 i _ h rfl

theorem processTriageRow_WF (now : Nat) (acc : BugMap × List String)
    (r : BigQueryBug) (h : bugMapWF acc.1) :
    bugMapWF (processTriageRow now acc r).1 := by
  unfold processTriageRow
  by_cases h1 : r.JiraID = ""
  · rw [if_pos h1]; exact h
  · rw [if_neg h1]
    cases hpid : parseJiraID r.JiraID with
    | none => exact h
    | some i =>
      cases hbf : bugMapFind acc.1 i with
      | some b => simp only [hbf]; exact h
      | none =>
        simp only [hbf]
        exact bugMapWF_insert acc.1 i _ h rfl

theorem foldTestRows_WF (now : Nat) (tc : List (String × Test)) :
    ∀ (rows : List BigQueryBug) (acc : BugMap × List String),
      bugMapWF acc.1 → bugMapWF (rows.foldl (processTestRow now tc) acc).1
  | [], _, h => h
  | r :: rest, acc, h =>
    foldTestRows_WF now tc rest _ (processTestRow_WF now tc acc r h)

theorem foldJobRows_WF (now : Nat) (jc : List (String × ProwJob)) :
    ∀ (rows : List BigQueryBug) (acc : BugMap × List String),
      bugMapWF acc.1 → bugMapWF (rows.foldl (processJobRow now jc) acc).1
  | [], _, h => h
  | r :: rest, acc, h =>
    foldJobRows_WF now jc rest _ (processJobRow_WF now jc acc r h)

theorem foldTriageRows_WF (now : Nat) :
    ∀ (rows : List BigQueryBug) (acc : BugMap × List String),
      bugMapWF acc.1 → bugMapWF (rows.foldl (processTriageRow now) acc).1
  | [], _, h => h
  | r :: rest, acc, h =>
    foldTriageRows_WF now rest _ (processTriageRow_WF now acc r h)

theorem mergeJobStep_WF (acc : BugMap) (p : Nat × Bug) (h : bugMapWF acc) :
    bugMapWF (mergeJobStep acc p) := by
  unfold mergeJobStep
  cases hbf : bugMapFind acc p.2.ID with
  | some existing =>
    simp only [hbf]
    have hid : existing.ID = p.2.ID := bugMapFind_WF_ID acc p.2.ID existing h hbf
    exact bugMapWF_insert acc p.2.ID _ h (by simpa using hid)
  | none =>
    simp only [hbf]
    exact bugMapWF_insert acc p.2.ID p.2 h rfl

theorem mergeTriageStep_WF (acc : BugMap) (p : Nat × Bug) (h : bugMapWF acc) :
    bugMapWF (mergeTriageStep acc p) := by
  unfold mergeTriageStep
  cases hbf : bugMapFind acc p.2.ID with
  | some existing => simp only [hbf]; exact h
  | none =>
    simp only [hbf]
    exact bugMapWF_insert acc p.2.ID p.2 h rfl

theorem mergeJobBugs_WF :
    ∀ (jb : List (Nat × Bug)) (acc : BugMap),
      bugMapWF acc → bugMapWF (mergeJobBugs acc jb)
  | [], _, h => h
  | p :: rest, acc, h =>
    mergeJobBugs_WF rest (mergeJobStep acc p) (mergeJobStep_WF acc p h)

theorem mergeTriageBugs_WF :
    ∀ (trb : List (Nat × Bug)) (acc : BugMap),
      bugMapWF acc → bugMapWF (mergeTriageBugs acc trb)
  | [], _, h => h
  | p :: rest, acc, h =>
    mergeTriageBugs_WF rest (mergeTriageStep acc p) (mergeTriageStep_WF acc p h)

theorem loadMerged_WF (now : Nat) (tc : List (String × Test))
    (jc : List (String × ProwJob)) (testRows jobRows triageRows : List BigQueryBug) :
    bugMapWF (loadMerged now tc jc testRows jobRows triageRows) := by
  unfold loadMerged
  apply mergeTriageBugs_WF
  apply mergeJobBugs_WF
  exact foldTestRows_WF now tc testRows ([], []) ⟨List.nodup_nil, by simp⟩

theorem merged_ids_nodup (m : BugMap) (h : bugMapWF m) :
    ((m.map (fun p => p.2)).map (fun b => b.ID)).Nodup := by
  rw [List.map_map]
  have heq : m.map ((fun b => b.ID) ∘ (fun p : Nat × Bug => p.2)) = m.map Prod.fst :=
    List.map_congr_left (fun p hp => h.2 p hp)
  rw [heq]
  exact h.1

theorem upsertBug_id_eq (T : List Bug) (b : Bug) :
    ∀ r ∈ upsertBug T b, r.ID = b.ID → r = b := by
  intro r hr hid
  unfold upsertBug at hr
  by_cases hany : T.any (fun q => q.ID == b.ID) = true
  · rw [if_pos hany] at hr
    obtain ⟨q, _, hfq⟩ := List.mem_map.mp hr
    by_cases h : q.ID = b.ID
    · rw [← hfq]
      simp [h]
    · exfalso
      apply h
      rw [← hfq] at hid
      simp [h] at hid
  · rw [if_neg hany] at hr
    have hno : ∀ q ∈ T, q.ID ≠ b.ID := by simpa using hany
    rcases List.mem_append.mp hr with h | h
    · exact absurd hid (hno r h)
    · simpa using h

theorem upsertBug_preserve_vals (T : List Bug) (b : Bug) (i : Nat) (c : Bug)
    (hbi : b.ID ≠ i) (hT : ∀ r ∈ T, r.ID = i → r = c) :
    ∀ r ∈ upsertBug T b, r.ID = i → r = c := by
  intro r hr hid
  unfold upsertBug at hr
  by_cases hany : T.any (fun q => q.ID == b.ID) = true
  · rw [if_pos hany] at hr
    obtain ⟨q, hq, hfq⟩ := List.mem_map.mp hr
    by_cases h : q.ID = b.ID
    · rw [← hfq] at hid ⊢
      simp only [h, beq_self_eq_true, if_true] at hid ⊢
      exact absurd hid hbi
    · rw [← hfq] at hid ⊢
      simp only [h, beq_iff_eq, if_false] at hid ⊢
      exact hT q hq hid
  · rw [if_neg hany] at hr
    rcases List.mem_append.mp hr with h | h
    · exact hT r h hid
    · have : r = b := by simpa using h
      rw [this] at hid
      exact absurd hid hbi

theorem upsertPhase_preserve_vals (i : Nat) (c : Bug) :
    ∀ (l : List Bug) (T : List Bug),
      (∀ b ∈ l, b.ID ≠ i) → (∀ r ∈ T, r.ID = i → r = c) →
      ∀ r ∈ upsertPhase T l (fun _ => false), r.ID = i → r = c
  | [], _, _, hT => hT
  | b :: rest, T, hl, hT =>
    upsertPhase_preserve_vals i c rest (upsertBug T b)
      (fun q hq => hl q (List.mem_cons_of_mem _ hq))
      (upsertBug_preserve_vals T b i c (hl b (List.mem_cons_self _ _)) hT)

theorem upsertPhase_final_vals :
    ∀ (l : List Bug) (T : List Bug),
      ((l.map (fun b => b.ID)).Nodup) →
      ∀ b ∈ l, ∀ r ∈ upsertPhase T l (fun _ => false), r.ID = b.ID → r = b
  | [], _, _, b, hb => absurd hb (List.not_mem_nil b)
  | a :: rest, T, hnd, b, hb => by
    rw [List.map_cons, List.nodup_cons] at hnd
    rcases List.mem_cons.mp hb with rfl | hbr
    · exact upsertPhase_preserve_vals b.ID b rest (upsertBug T b)
        (fun q hq hcontra =>
          hnd.1 (hcontra ▸ List.mem_map_of_mem (fun x => x.ID) hq))
        (upsertBug_id_eq T b)
    · exact upsertPhase_final_vals rest (upsertBug T a) hnd.2 b hbr

theorem upsertBug_self_presence (T : List Bug) (b : Bug) :
    ∃ r ∈ upsertBug T b, r.ID = b.ID := by
  unfold upsertBug
  by_cases hany : T.any (fun q => q.ID == b.ID) = true
  · rw [if_pos hany]
    obtain ⟨q, hq, hqid⟩ := List.any_eq_true.mp hany
    refine ⟨b, List.mem_map.mpr ⟨q, hq, ?_⟩, rfl⟩
    simp [hqid]
  · rw [if_neg hany]
    exact ⟨b, List.mem_append_right _ (List.mem_singleton.mpr rfl), rfl⟩

theorem upsertPhase_mem_presence :
    ∀ (l : List Bug) (T : List Bug), ∀ b ∈ l,
      ∃ r ∈ upsertPhase T l (fun _ => false), r.ID = b.ID
  | [], _, b, hb => absurd hb (List.not_mem_nil b)
  | a :: rest, T, b, hb => by
    rcases List.mem_cons.mp hb with rfl | hbr
    · exact upsertPhase_presence b.ID (fun _ => false) rest (upsertBug T b)
        (upsertBug_self_presence T b)
    · exact upsertPhase_mem_presence rest (upsertBug T a) b hbr

theorem upsertPhase_id (S : List Bug) :
    ∀ l : List Bug,
      (∀ b ∈ l, (∃ r ∈ S, r.ID = b.ID) ∧ (∀ r ∈ S, r.ID = b.ID → r = b)) →
      upsertPhase S l (fun _ => false) = S
  | [], _ => rfl
  | a :: rest, h => by
    have hstep : upsertBug S a = S := by
      obtain ⟨⟨r0, hr0, hid0⟩, hall⟩ := h a (List.mem_cons_self _ _)
      unfold upsertBug
      have hany : S.any (fun r => r.ID == a.ID) = true :=
        List.any_eq_true.mpr ⟨r0, hr0, by simp [hid0]⟩
      rw [if_pos hany]
      have hmap : ∀ r ∈ S, (if r.ID == a.ID then a else r) = r := by
        intro r hr
        by_cases h' : r.ID = a.ID
        · rw [if_pos (by simpa using h')]
          exact (hall r hr h').symm
        · rw [if_neg (by simpa using h')]
      calc S.map (fun r => if r.ID == a.ID then a else r)
          = S.map id := List.map_congr_left hmap
        _ = S := List.map_id S
    have hrec := upsertPhase_id S rest
      (fun b hb => h b (List.mem_cons_of_mem _ hb))
    calc upsertPhase S (a :: rest) (fun _ => false)
        = upsertPhase (upsertBug S a) rest (fun _ => false) := rfl
      _ = upsertPhase S rest (fun _ => false) := by rw [hstep]
      _ = S := hrec

theorem syncBugs_idem (T M : List Bug)
    (hnd : (M.map (fun b => b.ID)).Nodup) :
    syncBugs (syncBugs T M (fun _ => false)) M (fun _ => false)
      = syncBugs T M (fun _ => false) := by
  cases hM : M with
  | nil => rfl
  | cons a rest =>
    rw [← hM]
    have hidsne : (expectedBugIDs M).isEmpty = false := by
      rw [hM]; rfl
    have hS_def : syncBugs T M (fun _ => false)
        = (upsertPhase T M (fun _ => false)).filter
            (fun r => (expectedBugIDs M).contains r.ID) := by
      unfold syncBugs deleteStaleBugs
      rw [hidsne]
      simp
    have hS_sub : ∀ r ∈ syncBugs T M (fun _ => false),
        r ∈ upsertPhase T M (fun _ => false) ∧
          (expectedBugIDs M).contains r.ID = true := by
      intro r hr
      rw [hS_def] at hr
      exact List.mem_filter.mp hr
    have hvals : ∀ b ∈ M, ∀ r ∈ syncBugs T M (fun _ => false),
        r.ID = b.ID → r = b := by
      intro b hb r hr hid
      exact upsertPhase_final_vals M T hnd b hb r (hS_sub r hr).1 hid
    have hpres : ∀ b ∈ M, ∃ r ∈ syncBugs T M (fun _ => false), r.ID = b.ID := by
      intro b hb
      obtain ⟨r, hr, hid⟩ := upsertPhase_mem_presence M T b hb
      refine ⟨r, ?_, hid⟩
      rw [hS_def]
      refine List.mem_filter.mpr ⟨hr, ?_⟩
      rw [hid]
      have : b.ID ∈ expectedBugIDs M := List.mem_map_of_mem (fun x => x.ID) hb
      simpa using this
    have hphase : upsertPhase (syncBugs T M (fun _ => false)) M (fun _ => false)
        = syncBugs T M (fun _ => false) :=
      upsertPhase_id _ M (fun b hb =>
        ⟨hpres b hb, fun r hr hid => hvals b hb r hr hid⟩)
    have hdel : deleteStaleBugs (syncBugs T M (fun _ => false)) (expectedBugIDs M)
        = syncBugs T M (fun _ => false) := by
      unfold deleteStaleBugs
      rw [hidsne]
      simp only [Bool.false_eq_true, if_false]
      apply List.filter_eq_self.mpr
      intro r hr
      exact (hS_sub r hr).2
    calc syncBugs (syncBugs T M (fun _ => false)) M (fun _ => false)
        = deleteStaleBugs (upsertPhase (syncBugs T M (fun _ => false)) M
            (fun _ => false)) (expectedBugIDs M) := rfl
      _ = deleteStaleBugs (syncBugs T M (fun _ => false)) (expectedBugIDs M) := by
          rw [hphase]
      _ = syncBugs T M (fun _ => false) := hdel

/-- Claim C2 (amended): running Load a second time with identical external
source data (same decoded rows for the test and job queries, same response
function for the key-filtered triage query), unchanged caches and no
persistence failures produces no change to the Ticket table or its
Test/Job associations, provided every fetched row carries a valid
last-changed timestamp; a row with an invalid (null) timestamp takes the
current wall-clock time instead, so its Ticket row changes between runs
whenever the clock moved. -/
theorem c2_reconciler_idempotent
    (testRows jobRows : List BigQueryBug)
    (triageQuery : List String → List BigQueryBug)
    (now₁ now₂ : Nat) (testCache : List (String × Test))
    (jobCache : List (String × ProwJob)) (st st₁ : DBState) (errs₁ : List String)
    (hvt : ∀ r ∈ testRows, r.LastChangedTime.isSome = true)
    (hvj : ∀ r ∈ jobRows, r.LastChangedTime.isSome = true)
    (hvq : ∀ keys, ∀ r ∈ triageQuery keys, r.LastChangedTime.isSome = true)
    (hrun1 : bugLoaderLoad testRows jobRows triageQuery now₁ testCache jobCache
      (fun _ => false) (fun _ => false) st = some (st₁, errs₁)) :
    ∃ st₂ errs₂,
      bugLoaderLoad testRows jobRows triageQuery now₂ testCache jobCache
        (fun _ => false) (fun _ => false) st₁ = some (st₂, errs₂) ∧
      st₂.bugs = st₁.bugs := by
  unfold bugLoaderLoad at hrun1
  cases hkeys : computeTriageKeys st.triages with
  | none => rw [hkeys] at hrun1; simp at hrun1
  | some keys =>
    rw [hkeys] at hrun1
    have hA : (⟨syncBugs st.bugs ((loadMerged now₁ testCache jobCache testRows
          jobRows (triageQuery keys)).map (fun p => p.2)) (fun _ => false),
        st.triages.map (relinkTriage (fun _ => false) st.bugs (syncBugs st.bugs
          ((loadMerged now₁ testCache jobCache testRows jobRows
            (triageQuery keys)).map (fun p => p.2)) (fun _ => false)))⟩ : DBState)
        = st₁ :=
      congrArg Prod.fst (Option.some.inj hrun1)
    have hbugs1 : st₁.bugs = syncBugs st.bugs ((loadMerged now₁ testCache
        jobCache testRows jobRows (triageQuery keys)).map (fun p => p.2))
        (fun _ => false) := by
      rw [← hA]
    have htri1 : st₁.triages = st.triages.map (relinkTriage (fun _ => false)
        st.bugs (syncBugs st.bugs ((loadMerged now₁ testCache jobCache testRows
          jobRows (triageQuery keys)).map (fun p => p.2)) (fun _ => false))) := by
      rw [← hA]
    have hkeys2 : computeTriageKeys st₁.triages = some keys := by
      rw [htri1, computeTriageKeys_map _ (relinkTriage_URL (fun _ => false)
        st.bugs _)]
      exact hkeys
    have hMerged : loadMerged now₂ testCache jobCache testRows jobRows
        (triageQuery keys) = loadMerged now₁ testCache jobCache testRows jobRows
        (triageQuery keys) :=
      loadMerged_now_indep now₂ now₁ testCache jobCache testRows jobRows
        (triageQuery keys) hvt hvj (hvq keys)
    have hnd : (((loadMerged now₁ testCache jobCache testRows jobRows
        (triageQuery keys)).map (fun p => p.2)).map (fun b => b.ID)).Nodup :=
      merged_ids_nodup _ (loadMerged_WF now₁ testCache jobCache testRows jobRows
        (triageQuery keys))
    have hsync : syncBugs st₁.bugs ((loadMerged now₁ testCache jobCache testRows
        jobRows (triageQuery keys)).map (fun p => p.2)) (fun _ => false)
        = st₁.bugs := by
      rw [hbugs1]
      exact syncBugs_idem st.bugs _ hnd
    refine ⟨⟨syncBugs st₁.bugs ((loadMerged now₁ testCache jobCache testRows
        jobRows (triageQuery keys)).map (fun p => p.2)) (fun _ => false),
        st₁.triages.map (relinkTriage (fun _ => false) st₁.bugs
          (syncBugs st₁.bugs ((loadMerged now₁ testCache jobCache testRows
            jobRows (triageQuery keys)).map (fun p => p.2)) (fun _ => false)))⟩,
      (getTestBugMappings now₂ testCache testRows).2 ++
        (getJobBugMappings now₂ jobCache jobRows).2 ++
        (getTriageBugMappings now₂ (triageQuery keys)).2 ++
        (((loadMerged now₁ testCache jobCache testRows jobRows
          (triageQuery keys)).map (fun p => p.2)).filter
            (fun b => (fun _ => false) b.ID)).map
          (fun b => "error creating bug " ++ toString b.ID),
      ?_, ?_⟩
    · unfold bugLoaderLoad
      rw [hkeys2]
      simp only [hMerged]
    · exact hsync

theorem c2_reconciler_idempotent_witness :
    ∃ st₂ errs₂,
      bugLoaderLoad [{ JiraID := "5", Key := "K5", LinkName := "t1", LastChangedTime := some 99 }] [] (fun _ => []) 1 [("t1", { id := 1, name := "t1" })] [] (fun _ => false) (fun _ => false) ⟨[{ ID := 5, Key := "K5", LastChangeTime := 99, URL := "https://issues.redhat.com/browse/K5", Tests := [{ id := 1, name := "t1" }] }], []⟩ = some (st₂, errs₂) ∧
      st₂.bugs = (⟨[{ ID := 5, Key := "K5", LastChangeTime := 99, URL := "https://issues.redhat.com/browse/K5", Tests := [{ id := 1, name := "t1" }] }], []⟩ : DBState).bugs :=
  c2_reconciler_idempotent
    [{ JiraID := "5", Key := "K5", LinkName := "t1", LastChangedTime := some 99 }]
    [] (fun _ => []) 0 1 [("t1", { id := 1, name := "t1" })] [] ⟨[], []⟩
    ⟨[{ ID := 5, Key := "K5", LastChangeTime := 99, URL := "https://issues.redhat.com/browse/K5", Tests := [{ id := 1, name := "t1" }] }], []⟩
    [] (by decide) (by decide) (fun keys r hr => absurd hr (List.not_mem_nil r))
    (by decide)

/-- Counterexample to claim C2 as stated: a source row whose last-changed
timestamp is invalid (null) takes the wall-clock time in
bigQueryBugToModel, so two runs over identical external data at different
times write different LastChangeTime values for the same Ticket row — a
row delta in the Ticket table. -/
theorem c2_reconciler_idempotent_counterexample :
    bugLoaderLoad [{ JiraID := "5", Key := "K5", LinkName := "t1", LastChangedTime := none }] [] (fun _ => []) 0 [("t1", { id := 1, name := "t1" })] [] (fun _ => false) (fun _ => false) ⟨[], []⟩ = some (⟨[{ ID := 5, Key := "K5", LastChangeTime := 0, URL := "https://issues.redhat.com/browse/K5", Tests := [{ id := 1, name := "t1" }] }], []⟩, []) ∧
    bugLoaderLoad [{ JiraID := "5", Key := "K5", LinkName := "t1", LastChangedTime := none }] [] (fun _ => []) 1 [("t1", { id := 1, name := "t1" })] [] (fun _ => false) (fun _ => false) ⟨[{ ID := 5, Key := "K5", LastChangeTime := 0, URL := "https://issues.redhat.com/browse/K5", Tests := [{ id := 1, name := "t1" }] }], []⟩ = some (⟨[{ ID := 5, Key := "K5", LastChangeTime := 1, URL := "https://issues.redhat.com/browse/K5", Tests := [{ id := 1, name := "t1" }] }], []⟩, []) ∧
    ([({ ID := 5, Key := "K5", LastChangeTime := 1, URL := "https://issues.redhat.com/browse/K5", Tests := [{ id := 1, name := "t1" }] } : Bug)] : List Bug)
      ≠ [{ ID := 5, Key := "K5", LastChangeTime := 0, URL := "https://issues.redhat.com/browse/K5", Tests := [{ id := 1, name := "t1" }] }] := by
  refine ⟨by decide, by decide, by decide⟩
